import Mathlib

/-!
Verification development for the adobe-express-mcp-server repository.

This file shallowly embeds the documentation indexing and retrieval pipeline
of the repository (src/github_doc_service.ts and src/index.ts) in Lean:
the markdown segmenter (`parseFileContentToMCPItems`), the tag extractor
(`extractTagsFromPath`), the plain-text renderer (`tokensToPlainText`),
the remote search client (`searchFiles` with per-corpus failure handling),
the local query engine and the query router (`queryDocumentation`).

JavaScript string operations are modelled over Lean strings; JS numbers used
for relevance/confidence scores are modelled as exact rationals (the code only
assigns and compares literal constants and sums of small integers, so no
floating-point rounding is observable).  The markdown tokenizer of the
`marked` library is modelled for the block constructs that the repository's
documents exercise: ATX headings and paragraphs separated by blank lines.
-/

-- Primitive string operations.  The embedding models the JS string methods
-- the service calls; they are implemented here by structural recursion over
-- character lists so that every definition evaluates inside the kernel.

/-- Leading-segment test over character lists (JS `startsWith`). -/
def listLeadsWith : List Char → List Char → Bool
  | _, [] => true
  | [], _ :: _ => false
  | c :: cs, d :: ds => c = d && listLeadsWith cs ds

/-- JS `s.startsWith(pre)`. -/
def strStartsWith (s pre : String) : Bool :=
  listLeadsWith s.data pre.data

/-- JS `s.endsWith(suf)`. -/
def strEndsWith (s suf : String) : Bool :=
  listLeadsWith s.data.reverse suf.data.reverse

/-- JS `s.toLowerCase()` (character-wise lowercasing). -/
def strToLower (s : String) : String :=
  String.mk (s.data.map Char.toLower)

/-- JS `s.trim()`: strip whitespace from both ends. -/
def strTrim (s : String) : String :=
  String.mk
    (((s.data.dropWhile Char.isWhitespace).reverse.dropWhile Char.isWhitespace).reverse)

/-- Fuel-driven split on a non-empty literal separator, non-overlapping, left
to right (one character of the rest is consumed per step, so fuel equal to
the string length always suffices). -/
def splitOnListAux (sep : List Char) : Nat → List Char → List Char → List (List Char)
  | 0, acc, rest => [acc.reverse ++ rest]
  | _ + 1, acc, [] => [acc.reverse]
  | fuel + 1, acc, c :: cs =>
    if sep ≠ [] ∧ listLeadsWith (c :: cs) sep then
      acc.reverse :: splitOnListAux sep fuel [] ((c :: cs).drop sep.length)
    else splitOnListAux sep fuel (c :: acc) cs

/-- JS `s.split(sep)` for a literal separator string (also the behavior of
`String.prototype.split` with a string argument): the whole string when the
separator is empty-adjacent-degenerate, else the pieces between
non-overlapping occurrences. -/
def strSplitOn (s sep : String) : List String :=
  if sep = "" then [s]
  else (splitOnListAux sep.data (s.length + 1) [] s.data).map String.mk

/-- Split at every character satisfying `p` (JS `split(regex)` for a
single-character class; empty pieces appear between adjacent separators). -/
def splitPredAux (p : Char → Bool) (acc : List Char) : List Char → List (List Char)
  | [] => [acc.reverse]
  | c :: cs =>
    if p c then acc.reverse :: splitPredAux p [] cs
    else splitPredAux p (c :: acc) cs

def strSplitPred (s : String) (p : Char → Bool) : List String :=
  (splitPredAux p [] s.data).map String.mk

/-- Fuel-driven global literal replacement (JS `replace(/pat/g, repl)`). -/
def replaceAllAux (pat repl : List Char) : Nat → List Char → List Char
  | 0, rest => rest
  | _ + 1, [] => []
  | fuel + 1, c :: cs =>
    if pat ≠ [] ∧ listLeadsWith (c :: cs) pat then
      repl ++ replaceAllAux pat repl fuel ((c :: cs).drop pat.length)
    else c :: replaceAllAux pat repl fuel cs

/-- JS `s.replace(/pat/g, repl)` for a literal pattern. -/
def strReplace (s pat repl : String) : String :=
  String.mk (replaceAllAux pat.data repl.data (s.length + 1) s.data)

/-- JS `s.includes(pat)`: substring containment, `true` for the empty pattern. -/
def jsIncludes (s pat : String) : Bool :=
  pat.isEmpty || (strSplitOn s pat).length > 1

/-- JS `\s` whitespace class (ASCII part, which is all this repository's data uses). -/
def isJsWs (c : Char) : Bool :=
  c = ' ' || c = '\t' || c = '\n' || c = '\r' || c = '\x0b' || c = '\x0c'

/-- JS falsy-string fallback `a || b`: empty or absent strings fall through. -/
def jsStrOr (a : Option String) (b : String) : String :=
  match a with
  | some s => if s = "" then b else s
  | none => b

/-- Word character of the JS `\w` class (ASCII letters, digits, underscore). -/
def isWordChar (c : Char) : Bool :=
  c.isAlpha || c.isDigit || c = '_'

/-- Group a character list into maximal runs on which `f` is constant
(accumulator-passing helper; `acc` holds the current run reversed). -/
def chunkAux (f : Char → Bool) (cur : Bool) (acc : List Char) : List Char → List (List Char)
  | [] => [acc.reverse]
  | c :: cs =>
    if f c = cur then chunkAux f cur (c :: acc) cs
    else acc.reverse :: chunkAux f (f c) [c] cs

/-- Group a character list into maximal runs of `f`-true / `f`-false characters. -/
def chunkBy (f : Char → Bool) : List Char → List (List Char)
  | [] => []
  | c :: cs => chunkAux f (f c) [c] cs

/-- The maximal word-character tokens of a string (used to model the
word-boundary regex tests `\b(w1|w2|...)\b` of the segmenter). -/
def wordTokens (s : String) : List String :=
  ((chunkBy isWordChar s.data).filter (fun run => run.any isWordChar)).map
    (fun run => String.mk run)

/-- Whether a case-insensitive word-boundary alternation regex matches the
title: some maximal word token of the lowercased title is one of `alts`. -/
def matchesWordAlt (title : String) (alts : List String) : Bool :=
  (wordTokens (strToLower title)).any (fun w => alts.contains w)

-- Data sources / corpora, from github_doc_service.ts (MCPResultItem.dataSource).

inductive DataSource
  | express_sdk
  | spectrum_web_components
  | code_sample
  | unknown
deriving DecidableEq, Repr

inductive TargetSource
  | express_sdk
  | spectrum_web_components
  | all
deriving DecidableEq, Repr

inductive Mode
  | github
  | local
deriving DecidableEq, Repr

def modeString : Mode → String
  | .github => "github"
  | .local => "local"

/-- The front-matter fields the pipeline reads (`title`, `name`, `tags`, `type`). -/
structure Frontmatter where
  title : Option String := none
  name : Option String := none
  tags : Option (List String) := none
  type : Option String := none
deriving DecidableEq, Repr

/-- github_doc_service.ts `MCPResultItem`. -/
structure MCPResultItem where
  type : String
  title : String
  content : String
  raw_markdown_content : Option String := none
  source_hint : String
  tags : Option (List String) := none
  frontmatter : Option Frontmatter := none
  parent_title : Option String := none
  dataSource : DataSource
deriving DecidableEq, Repr

/-- A validated item of a GitHub code-search response (`GitHubAPISearchItemSchema`). -/
structure SearchItem where
  name : String
  path : String
  sha : String
  url : String := ""
  html_url : String := ""
  score : Option ℚ := none
deriving DecidableEq, Repr

/-- github_doc_service.ts `GitHubFileSearchResult`. -/
structure GitHubFileSearchResult where
  name : String
  path : String
  sha : String
  url : String
  html_url : String
  score : Option ℚ
  repo : DataSource
deriving DecidableEq, Repr

/-- github_doc_service.ts `GitHubFileContent` (front-matter already split). -/
structure GitHubFileContent where
  name : String
  path : String
  sha : String
  html_url : String
  content : String
  frontmatter : Frontmatter
  markdown_body : String
  dataSource : DataSource
deriving DecidableEq, Repr

-- A stable descending sort, modelling JS `Array.prototype.sort` with the
-- comparators `(a, b) => b.score - a.score` used by the service (ES2019
-- requires the sort to be stable; Node 18 complies).

/-- Insert `x` before the first element whose key is `≤ key x`.  Used to build
a stable descending sort: `x` (the earlier element) goes in front of every
later element with an equal key. -/
def insertDescBy {α β : Type} [LinearOrder β] (key : α → β) (x : α) : List α → List α
  | [] => [x]
  | y :: ys => if key y ≤ key x then x :: y :: ys else y :: insertDescBy key x ys

/-- Stable sort, descending by `key`. -/
def sortDescBy {α β : Type} [LinearOrder β] (key : α → β) : List α → List α
  | [] => []
  | x :: xs => insertDescBy key x (sortDescBy key xs)

theorem insertDescBy_perm {α β : Type} [LinearOrder β] (key : α → β) (x : α) (l : List α) :
    (insertDescBy key x l).Perm (x :: l) := by
  induction l with
  | nil => exact List.Perm.refl _
  | cons y ys ih =>
    rw [insertDescBy]
    by_cases h : key y ≤ key x
    · rw [if_pos h]
    · rw [if_neg h]
      exact ((ih.cons y).trans (List.Perm.swap x y ys))

theorem sortDescBy_perm {α β : Type} [LinearOrder β] (key : α → β) (l : List α) :
    (sortDescBy key l).Perm l := by
  induction l with
  | nil => exact List.Perm.refl _
  | cons x xs ih =>
    rw [sortDescBy]
    exact (insertDescBy_perm key x (sortDescBy key xs)).trans (ih.cons x)

/-- Stability of the insertion step: restricted to any one key value `s`, the
inserted list agrees with the original list with `x` (when its key is `s`)
put in front.  Elements skipped over by the insertion all have keys strictly
greater than `key x`, hence different from `s` when `key x = s`. -/
theorem filter_insertDescBy {α β : Type} [LinearOrder β] (key : α → β) (x : α)
    (l : List α) (s : β) :
    (insertDescBy key x l).filter (fun a => key a = s) =
      if key x = s then x :: l.filter (fun a => key a = s)
      else l.filter (fun a => key a = s) := by
  induction l with
  | nil =>
    rw [insertDescBy]
    by_cases hx : key x = s
    · simp [hx]
    · simp [hx]
  | cons y ys ih =>
    rw [insertDescBy]
    by_cases h : key y ≤ key x
    · rw [if_pos h]
      by_cases hx : key x = s
      · simp [hx, List.filter]
      · simp [hx, List.filter]
    · rw [if_neg h]
      by_cases hx : key x = s
      · have hy : ¬ key y = s := fun hys => h (le_of_eq (hys.trans hx.symm))
        rw [if_pos hx]
        simp [List.filter_cons, hy, ih, if_pos hx]
      · rw [if_neg hx]
        simp [List.filter_cons, ih, if_neg hx]

/-- Stability of the full sort: restricted to any one key value, the sorted
list is exactly the original list (equal-key elements keep encounter order). -/
theorem filter_sortDescBy {α β : Type} [LinearOrder β] (key : α → β) (l : List α) (s : β) :
    (sortDescBy key l).filter (fun a => key a = s) = l.filter (fun a => key a = s) := by
  induction l with
  | nil => rfl
  | cons x xs ih =>
    rw [sortDescBy, filter_insertDescBy]
    by_cases hx : key x = s
    · rw [if_pos hx, ih]
      simp [List.filter_cons, hx]
    · rw [if_neg hx, ih]
      simp [List.filter_cons, hx]

-- Path helpers modelling the node `path` module on POSIX paths as used by
-- the service (path.basename, path.extname, path.relative under a base).

/-- node `path.basename(p)` for POSIX paths without trailing separators. -/
def basename (p : String) : String :=
  (strSplitOn p "/").getLastD ""

/-- node `path.extname(p)`: from the last dot of the basename (not at index 0). -/
def extname (p : String) : String :=
  let b := basename p
  let idxs := (List.range b.length).filter (fun i => b.data.getD i ' ' = '.')
  match idxs.getLast? with
  | none => ""
  | some 0 => ""
  | some i => String.mk (b.data.drop i)

/-- node `path.basename(p, path.extname(p))`: basename with its extension removed. -/
def basenameNoExt (p : String) : String :=
  let b := basename p
  let e := extname p
  if e ≠ "" ∧ strEndsWith b e then b.dropRight e.length else b

/-- node `path.relative(base, p)` in the regime the segmenter uses it
(`p.startsWith base` already checked by the caller): strip `base ++ "/"` when
`p` lies under `base`; a same-prefix path not at a component boundary resolves
to a `../`-path. -/
def pathRelativeUnder (base p : String) : String :=
  if p = base then ""
  else if strStartsWith p (base ++ "/") then p.drop (base.length + 1)
  else "../" ++ p

def EXPRESS_DOCS_REPO_BASE_PATH : String := "src/pages"

def SWC_DOCS_PACKAGES_PATH : String := "packages"

/-- github_doc_service.ts `extractTagsFromPath` (lines 144-171): derive tags
from the path of a file within its corpus base. -/
def extractTagsFromPath (filePathWithinBase : String) (dataSource : DataSource) :
    List String :=
  let parts := (strSplitOn filePathWithinBase "/").map strToLower
  let filename := strToLower (basenameNoExt filePathWithinBase)
  let tags0 := parts.dropLast ++ (if filename = "index" then [] else [filename])
  let tags :=
    if dataSource = DataSource.spectrum_web_components then
      if filename = "readme" ∧ parts.length ≥ 2 ∧ parts.headD "" = "packages" then
        [parts.getD 1 ""]
      else
        let t := parts.filter (fun p =>
          p ≠ "packages" ∧ p ≠ "stories" ∧ p ≠ "src" ∧ p ≠ "docs" ∧ p ≠ "test")
        let t :=
          if parts.length ≥ 2 ∧ parts.headD "" = "packages" ∧ ¬ t.contains (parts.getD 1 "")
          then parts.getD 1 "" :: t else t
        if filename ≠ "index" ∧ filename ≠ "readme" ∧ ¬ t.contains filename
        then t ++ [filename] else t
    else tags0
  tags.filter (fun tag =>
    tag ≠ "" ∧ ¬ ["src", "pages", "index", ""].contains tag ∧ ¬ strStartsWith tag "_")

-- Markdown tokens, modelling the block tokens the `marked` lexer produces on
-- the repository's documents: ATX headings and paragraphs.

inductive Tok
  | heading (depth : Nat) (text : String) (raw : String)
  | para (text : String) (raw : String)
deriving DecidableEq, Repr

/-- Recognize an ATX heading line of depth 1-3 (the depths the segmenter
distinguishes), returning depth and inline text. -/
def headingDepthOf (l : String) : Option (Nat × String) :=
  if strStartsWith l "### " then some (3, strTrim (l.drop 4))
  else if strStartsWith l "## " then some (2, strTrim (l.drop 3))
  else if strStartsWith l "# " then some (1, strTrim (l.drop 2))
  else none

def mkPara (lines : List String) : Tok :=
  Tok.para (String.intercalate "\n" lines) (String.intercalate "\n" lines ++ "\n")

/-- Line-based block lexer (model of `marked.lexer` on ATX headings and
paragraphs): headings are single lines, consecutive non-blank non-heading
lines merge into one paragraph, blank lines separate blocks.  The first
argument accumulates the current paragraph's lines in reverse. -/
def lexAux : Option (List String) → List String → List Tok
  | acc, [] =>
    (match acc with
     | some ls => [mkPara ls.reverse]
     | none => [])
  | acc, l :: rest =>
    match headingDepthOf l with
    | some (d, t) =>
      let htok := Tok.heading d t (l ++ "\n")
      (match acc with
       | some ls => mkPara ls.reverse :: htok :: lexAux none rest
       | none => htok :: lexAux none rest)
    | none =>
      if strTrim l = "" then
        (match acc with
         | some ls => mkPara ls.reverse :: lexAux none rest
         | none => lexAux none rest)
      else
        (match acc with
         | some ls => lexAux (some (l :: ls)) rest
         | none => lexAux (some [l]) rest)

/-- `marked.lexer` model over the constructs used by the repository's docs. -/
def lexer (body : String) : List Tok :=
  lexAux none (strSplitOn body "\n")

/-- github_doc_service.ts `tokensToMarkdown`: concatenate the raw source of tokens. -/
def tokensToMarkdown (toks : List Tok) : String :=
  String.join (toks.map (fun t =>
    match t with
    | Tok.heading _ _ raw => raw
    | Tok.para _ raw => raw))

/-- The plain-text renderer of `tokensToPlainText`: headings become
`text ++ "\n\n"`, paragraphs `text ++ "\n"` (the custom `marked.Renderer`). -/
def renderTok : Tok → String
  | Tok.heading _ text _ => text ++ "\n\n"
  | Tok.para text _ => text ++ "\n"

/-- One whitespace run under the global regex replace `/\n\s*\n/g -> "\n\n"`:
a run holding at least two newlines keeps the whitespace before its first and
after its last newline and collapses the middle to exactly one blank line. -/
def collapseChunk (run : List Char) : List Char :=
  if (run.filter (fun c => c = '\n')).length ≥ 2 then
    run.takeWhile (fun c => c ≠ '\n') ++ ['\n', '\n'] ++
      (run.reverse.takeWhile (fun c => c ≠ '\n')).reverse
  else run

/-- The global regex replace `plainText.replace(/\n\s*\n/g, "\n\n")`:
each maximal whitespace run is collapsed independently (a match must start
and end with a newline, so it is confined to one maximal whitespace run). -/
def collapseBlankRuns (s : String) : String :=
  String.mk (((chunkBy isJsWs s.data).map collapseChunk).flatten)

/-- The trailing entity unescapes of `tokensToPlainText`, in source order. -/
def unescapeEntities (s : String) : String :=
  strReplace (strReplace (strReplace (strReplace (strReplace s
    "&lt;" "<") "&gt;" ">") "&quot;" "\"") "&#39;" "\x27") "&amp;" "&"

/-- github_doc_service.ts `tokensToPlainText` (lines 111-142) restricted to the
token kinds above: render, collapse blank runs, trim, unescape entities. -/
def tokensToPlainText (toks : List Tok) : String :=
  if toks.isEmpty then ""
  else unescapeEntities (strTrim (collapseBlankRuns (String.join (toks.map renderTok))))

-- The markdown segmenter: github_doc_service.ts `parseFileContentToMCPItems`
-- (lines 315-443).

/-- Method-signature test for level-3 headings: the regex
`/\w+\s*\(.*\)/.test(title)` — a word-character run, optional whitespace, an
opening parenthesis, and a closing parenthesis somewhere after it (heading
texts are single lines, so the dot class never meets a newline). -/
def testMethodSignature (s : String) : Bool :=
  let cs := s.data
  (List.range cs.length).any (fun i =>
    cs.getD i ' ' = '(' ∧
    isWordChar (((cs.take i).reverse.dropWhile isJsWs).headD ' ') ∧
    (cs.drop (i + 1)).contains ')')

/-- Property-signature test for level-3 headings: the regex
`/^[a-zA-Z_][\w\.]*(\s*:.*)?$/` applied to `title.split(/\s|:/)[0]`; on a
split piece (which holds no whitespace and no colon) the optional group can
only match emptily, so the test reduces to an identifier-like shape. -/
def testPropertySignature (s : String) : Bool :=
  let piece := (s.data.takeWhile (fun c => ¬ (isJsWs c ∨ c = ':')))
  match piece with
  | [] => false
  | c :: rest => (c.isAlpha ∨ c = '_') ∧ rest.all (fun d => isWordChar d ∨ d = '.')

/-- Section kind for a freshly seen level-2 or level-3 heading (lines 392-401).
The word lists spell out the regex alternations literally: note the source's
`properties?` matches "propertie"/"properties" (not "property") and
`example?s` matches "examples"/"exampls" (not "example"). -/
def sectionTypeFor (depth : Nat) (title : String) : String :=
  if depth = 2 then
    if matchesWordAlt title ["method", "methods", "function", "functions"] then
      "class_methods_group"
    else if matchesWordAlt title
        ["propertie", "properties", "attribute", "attributes", "field", "fields", "api"] then
      "class_properties_group"
    else if matchesWordAlt title ["event", "events"] then
      "class_events_group"
    else if matchesWordAlt title ["examples", "exampls", "usage"] then
      "examples_section"
    else "major_section"
  else
    if testMethodSignature title then "class_method_detail"
    else if testPropertySignature title then "class_property_detail"
    else "minor_section"

/-- Tags of a section item: base tags plus the lowercase whitespace-split
words of the heading text of length > 1 that hold no backtick (line 383). -/
def sectionTags (baseTags : List String) (sectionTitle : String) : List String :=
  baseTags ++ ((strSplitPred (strToLower sectionTitle) isJsWs).filter
    (fun t => t.length > 1 ∧ ¬ jsIncludes t "`"))

/-- Build one section item (the push at lines 377-387 / 410-420). -/
def mkSectionItem (fc : GitHubFileContent) (baseTitle : String) (baseTags : List String)
    (secType secTitle : String) (secToks : List Tok) : MCPResultItem :=
  { type := secType
    title := baseTitle ++ " - " ++ secTitle
    content := tokensToPlainText secToks
    raw_markdown_content := some (tokensToMarkdown secToks)
    source_hint := fc.html_url
    tags := some (sectionTags baseTags secTitle)
    frontmatter := some fc.frontmatter
    parent_title := some baseTitle
    dataSource := fc.dataSource }

/-- Emit the pending section if it has tokens, a title, and non-empty content
(the guards at lines 374-376 / 407-409). -/
def flushSection (fc : GitHubFileContent) (baseTitle : String) (baseTags : List String)
    (secType secTitle : String) (secToks : List Tok) : List MCPResultItem :=
  if secToks.length > 0 ∧ secTitle ≠ "" ∧ strTrim (tokensToPlainText secToks) ≠ "" then
    [mkSectionItem fc baseTitle baseTags secType secTitle secToks]
  else []

/-- The heading-splitting loop (lines 371-405 plus the final flush at 407-422):
walk the tokens from the first level-2 heading, starting a new section at each
level-2/3 heading and flushing the previous one. -/
def segLoop (fc : GitHubFileContent) (baseTitle : String) (baseTags : List String) :
    List Tok → String → List Tok → String → List MCPResultItem
  | [], secTitle, secToks, secType =>
      flushSection fc baseTitle baseTags secType secTitle secToks
  | t :: rest, secTitle, secToks, secType =>
    match t with
    | Tok.heading d text _ =>
      if d = 2 ∨ d = 3 then
        let newTitle := strReplace text "`" ""
        flushSection fc baseTitle baseTags secType secTitle secToks ++
          segLoop fc baseTitle baseTags rest newTitle [t] (sectionTypeFor d newTitle)
      else
        segLoop fc baseTitle baseTags rest secTitle (secToks ++ [t]) secType
    | Tok.para _ _ =>
      segLoop fc baseTitle baseTags rest secTitle (secToks ++ [t]) secType

/-- github_doc_service.ts `parseFileContentToMCPItems` (lines 315-443). -/
def parseFileContentToMCPItems (fc : GitHubFileContent) : List MCPResultItem :=
  let fm := fc.frontmatter
  let repoBasePathForTags :=
    if fc.dataSource = DataSource.express_sdk then EXPRESS_DOCS_REPO_BASE_PATH
    else SWC_DOCS_PACKAGES_PATH
  let pathWithinRelevantBase :=
    if strStartsWith fc.path repoBasePathForTags then
      pathRelativeUnder repoBasePathForTags fc.path
    else fc.path
  let baseTitle := jsStrOr fm.title (jsStrOr fm.name (basenameNoExt fc.path))
  let baseTags :=
    match fm.tags with
    | some ts => ts
    | none => extractTagsFromPath pathWithinRelevantBase fc.dataSource
  let tokens := lexer fc.markdown_body
  let firstH2Index := tokens.findIdx? (fun t =>
    match t with
    | Tok.heading 2 _ _ => true
    | _ => false)
  let treatAsSinglePage :=
    fc.dataSource = DataSource.spectrum_web_components ∧
      strToLower (basename fc.path) = "readme.md"
  let results :=
    if firstH2Index = none ∨ strToLower (basename fc.path) = "index.md" ∨ treatAsSinglePage then
      let mainContentText := tokensToPlainText tokens
      if strTrim mainContentText ≠ "" then
        [{ type := jsStrOr fm.type
              (if treatAsSinglePage then "spectrum_component_overview"
               else if strToLower (basename fc.path) = "index.md" then "category_overview"
               else "documentation_page")
           title := baseTitle
           content := mainContentText
           raw_markdown_content := some fc.markdown_body
           source_hint := fc.html_url
           tags := some baseTags
           frontmatter := some fm
           parent_title := some baseTitle
           dataSource := fc.dataSource }]
      else []
    else
      let idx := firstH2Index.getD 0
      let overviewTokens := tokens.take idx
      let overviewContentText := tokensToPlainText overviewTokens
      let overview :=
        if strTrim overviewContentText ≠ "" then
          [{ type := jsStrOr fm.type "page_overview"
             title := baseTitle ++ " - Overview"
             content := overviewContentText
             raw_markdown_content := some (tokensToMarkdown overviewTokens)
             source_hint := fc.html_url
             tags := some (baseTags ++ ["overview"])
             frontmatter := some fm
             parent_title := some baseTitle
             dataSource := fc.dataSource }]
        else []
      let items := overview ++
        segLoop fc baseTitle baseTags (tokens.drop idx) "" [] "documentation_section"
      if items.isEmpty && !tokens.isEmpty then
        let fallbackContent := tokensToPlainText tokens
        if strTrim fallbackContent ≠ "" then
          [{ type := jsStrOr fm.type "documentation_page"
             title := baseTitle
             content := fallbackContent
             raw_markdown_content := some fc.markdown_body
             source_hint := fc.html_url
             tags := some baseTags
             frontmatter := some fm
             parent_title := some baseTitle
             dataSource := fc.dataSource }]
        else []
      else items
  results.filter (fun item => strTrim item.content ≠ "")

-- The remote search client: github_doc_service.ts `searchFiles` (lines 214-277).
-- The outcome of each per-corpus search request is a parameter of the model:
-- a validated response, a malformed response (Zod validation failure), or a
-- network/API error.  Both failure kinds are caught inside the per-corpus
-- promise chain and yield a null `validatedData`.

inductive CorpusOutcome
  | ok (items : List SearchItem)
  | malformed
  | netError
deriving DecidableEq, Repr

/-- The `validatedData` a per-corpus promise resolves with: the parsed items
on success, `null` for a malformed response or a caught request error. -/
def CorpusOutcome.validatedData : CorpusOutcome → Option (List SearchItem)
  | .ok items => some items
  | _ => none

/-- Turn one corpus's resolved outcome into result references (lines 260-272). -/
def refsFrom (src : DataSource) (o : CorpusOutcome) : List GitHubFileSearchResult :=
  match o.validatedData with
  | some items => items.map (fun it =>
      { name := it.name, path := it.path, sha := it.sha, url := it.url,
        html_url := it.html_url, score := it.score, repo := src })
  | none => []

/-- `searchFiles(query, targetSource)`: issue a request per targeted corpus,
merge the validated results (express first, as the promises are pushed in that
order), and sort descending by relevance score with missing scores as 0. -/
def searchFiles (targetSource : TargetSource) (express swc : CorpusOutcome) :
    List GitHubFileSearchResult :=
  let expressPart :=
    if targetSource = TargetSource.all ∨ targetSource = TargetSource.express_sdk then
      refsFrom DataSource.express_sdk express
    else []
  let swcPart :=
    if targetSource = TargetSource.all ∨ targetSource = TargetSource.spectrum_web_components then
      refsFrom DataSource.spectrum_web_components swc
    else []
  sortDescBy (fun r => r.score.getD 0) (expressPart ++ swcPart)

-- The query router and both engines: index.ts `queryDocumentation` (172-310).

def queryMentionsSpectrum (q : String) : Bool :=
  jsIncludes (strToLower q) "spectrum" || strStartsWith (strToLower q) "sp-"

def queryMentionsExpress (q : String) : Bool :=
  jsIncludes (strToLower q) "express" || jsIncludes (strToLower q) "addon"

/-- GitHub-mode effective target source (index.ts lines 185-191): an explicit
hint (including "all") is used as-is, else the query text is inspected. -/
def effectiveTargetSourceGithub (query_text : String) (hint : Option TargetSource) :
    TargetSource :=
  match hint with
  | some t => t
  | none =>
    if queryMentionsSpectrum query_text then TargetSource.spectrum_web_components
    else if queryMentionsExpress query_text then TargetSource.express_sdk
    else TargetSource.all

/-- Local-mode effective target source (index.ts lines 244-252): a hint other
than "all" wins, else the query text is inspected, possibly leaving the
search unconstrained. -/
def effectiveTargetSourceLocal (query_text : String) (hint : Option TargetSource) :
    Option DataSource :=
  match hint with
  | some TargetSource.express_sdk => some DataSource.express_sdk
  | some TargetSource.spectrum_web_components => some DataSource.spectrum_web_components
  | _ =>
    if queryMentionsSpectrum query_text then some DataSource.spectrum_web_components
    else if queryMentionsExpress query_text then some DataSource.express_sdk
    else none

def tagMatches (tags : Option (List String)) (f : String → Bool) : Bool :=
  match tags with
  | some ts => ts.any f
  | none => false

/-- Per-item relevance score of the local query engine (index.ts 256-267):
+3 per term in the title, +2 per term in a tag, +1 per term in the content,
+1 once when the parent title holds the whole query, +1 once when the item's
data source equals the effective target source. -/
def scoreItem (query_lower : String) (query_terms : List String)
    (target : Option DataSource) (item : MCPResultItem) : Nat :=
  let title_lower := strToLower item.title
  let content_lower := strToLower item.content
  let base := query_terms.foldl (fun score term =>
    let score := if jsIncludes title_lower term then score + 3 else score
    let score := if tagMatches item.tags (fun tag => jsIncludes (strToLower tag) term) then
      score + 2 else score
    if jsIncludes content_lower term then score + 1 else score) 0
  let base :=
    match item.parent_title with
    | some pt => if jsIncludes (strToLower pt) query_lower then base + 1 else base
    | none => base
  match target with
  | some ds => if item.dataSource = ds then base + 1 else base
  | none => base

/-- The positively scored items of the local engine, in collection order
(index.ts 254-269 before sorting): source-filtered, scored, zero scores
dropped.  The query terms are the lowercased whitespace-split words of
length > 1. -/
def localPositiveScored (kb : List MCPResultItem) (query_text : String)
    (hint : Option TargetSource) : List (MCPResultItem × Nat) :=
  let query_lower := strToLower query_text
  let query_terms := (strSplitPred query_lower isJsWs).filter (fun t => t.length > 1)
  let target := effectiveTargetSourceLocal query_text hint
  let filtered := kb.filter (fun item =>
    match target with
    | none => true
    | some ds => item.dataSource = ds)
  (filtered.map (fun item => (item, scoreItem query_lower query_terms target item))).filter
    (fun p => p.2 > 0)

/-- The sorted scored list (index.ts line 270): stable descending by score. -/
def localScoredResults (kb : List MCPResultItem) (query_text : String)
    (hint : Option TargetSource) : List (MCPResultItem × Nat) :=
  sortDescBy (fun p => p.2) (localPositiveScored kb query_text hint)

/-- The local engine's result items (index.ts line 272): top 10 by score. -/
def localTopResults (kb : List MCPResultItem) (query_text : String)
    (hint : Option TargetSource) : List MCPResultItem :=
  ((localScoredResults kb query_text hint).take 10).map Prod.fst

/-- The placeholder pushed when the local knowledge base is empty (231-239). -/
def errorInfoItem : MCPResultItem :=
  { type := "error_info", title := "Local Knowledge Base Empty",
    content := "Local KB is empty.", source_hint := "Server Config",
    tags := some ["error", "kb"], dataSource := DataSource.unknown }

/-- The placeholder pushed when the GitHub search finds no files (209-216). -/
def noMatchGithubItem (q : String) : MCPResultItem :=
  { type := "no_match_github", title := "No Files Found on GitHub",
    content := "GitHub search found no direct file matches for \x27" ++ q ++ "\x27.",
    source_hint := "GitHub API Search", tags := some ["error"],
    dataSource := DataSource.unknown }

/-- The synthetic no-match placeholder of the router (index.ts 277-286). -/
def noMatchItem (q : String) (mode : Mode) : MCPResultItem :=
  { type := "no_match", title := "Query Not Matched",
    content := "No information found for \x27" ++ q ++ "\x27 in " ++ modeString mode ++
      " mode.",
    source_hint := modeString mode, tags := some ["no_match"],
    dataSource := DataSource.unknown }

/-- Local-mode backend results and confidence (index.ts 229-274): the empty
collection yields the `error_info` placeholder and leaves the 0.2 prior;
otherwise the top-10 scored items with confidence 0.8, or 0.3 on zero hits. -/
def localBackend (kb : List MCPResultItem) (query_text : String)
    (hint : Option TargetSource) : List MCPResultItem × ℚ :=
  if kb.isEmpty then ([errorInfoItem], (0.2 : ℚ))
  else
    let results := localTopResults kb query_text hint
    (results, if results.length > 0 then (0.8 : ℚ) else (0.3 : ℚ))

/-- The result references actually fetched (index.ts line 195): the top 2 of
the merged search results when both corpora were targeted, else the top 3. -/
def githubFetchList (searchResults : List GitHubFileSearchResult)
    (target : TargetSource) : List GitHubFileSearchResult :=
  searchResults.take (if target = TargetSource.all then 2 else 3)

/-- The per-result fetch-and-segment loop (index.ts 195-201): one
`getFileContent` call per scheduled reference; a null content contributes no
items.  The fetch behavior is a parameter keyed by path and repo. -/
def githubParsedItems (toFetch : List GitHubFileSearchResult)
    (fetch : String → DataSource → Option GitHubFileContent) : List MCPResultItem :=
  toFetch.foldl (fun acc sr =>
    match fetch sr.path sr.repo with
    | some fc => acc ++ parseFileContentToMCPItems fc
    | none => acc) []

/-- The post-segmentation filter terms (index.ts line 202): lowercased query
split on single spaces, keeping pieces of length > 2. -/
def queryTermsForFilter (q : String) : List String :=
  (strSplitOn (strToLower q) " ").filter (fun t => t.length > 2)

/-- The post-segmentation precision filter (index.ts 203-206): keep an item
only when some filter term occurs in its lowercased title or in a tag
(tags are tested without lowercasing here, as in the source). -/
def githubFilterItems (q : String) (items : List MCPResultItem) : List MCPResultItem :=
  items.filter (fun r => (queryTermsForFilter q).any (fun term =>
    jsIncludes (strToLower r.title) term || tagMatches r.tags (fun tag => jsIncludes tag term)))

/-- The surviving GitHub-mode items when the search produced hits: fetch the
scheduled references, segment, and apply the precision filter. -/
def githubGenuine (q : String) (hint : Option TargetSource) (express swc : CorpusOutcome)
    (fetch : String → DataSource → Option GitHubFileContent) : List MCPResultItem :=
  let target := effectiveTargetSourceGithub q hint
  githubFilterItems q
    (githubParsedItems (githubFetchList (searchFiles target express swc) target) fetch)

/-- GitHub-mode backend (index.ts 182-228): results, confidence, and the
number of `getFileContent` calls performed. -/
def githubBackend (q : String) (hint : Option TargetSource) (express swc : CorpusOutcome)
    (fetch : String → DataSource → Option GitHubFileContent) :
    List MCPResultItem × ℚ × Nat :=
  let target := effectiveTargetSourceGithub q hint
  let searchResults := searchFiles target express swc
  if searchResults.length > 0 then
    let filtered := githubGenuine q hint express swc fetch
    (filtered, if filtered.length > 0 then (0.7 : ℚ) else (0.35 : ℚ),
      (githubFetchList searchResults target).length)
  else ([noMatchGithubItem q], (0.2 : ℚ), 0)

/-- The structured output of `queryDocumentation` (index.ts 288-293). -/
structure QueryDocumentationOutput where
  query_received : String
  results : List MCPResultItem
  confidence_score : ℚ
  mode_used : Mode
deriving DecidableEq, Repr

/-- The zero-result normalization and final truncation (index.ts 277-293):
append the `no_match` placeholder when the backend list is empty and no
error/no-match item is present (vacuously true on an empty list), then slice
to the first 10. -/
def finalizeResults (q : String) (mode : Mode) (res : List MCPResultItem) (conf : ℚ) :
    QueryDocumentationOutput :=
  let res :=
    if res.length = 0 ∧
        ¬ res.any (fun r => strStartsWith r.type "error" || strStartsWith r.type "no_match") then
      res ++ [noMatchItem q mode]
    else res
  { query_received := q, results := res.take 10, confidence_score := conf,
    mode_used := mode }

/-- The query router, index.ts `queryDocumentation`: dispatch on the current
knowledge mode and normalize the output. -/
def queryDocumentation (mode : Mode) (kb : List MCPResultItem) (q : String)
    (hint : Option TargetSource) (express swc : CorpusOutcome)
    (fetch : String → DataSource → Option GitHubFileContent) :
    QueryDocumentationOutput :=
  match mode with
  | Mode.github =>
    let b := githubBackend q hint express swc fetch
    finalizeResults q Mode.github b.1 b.2.1
  | Mode.local =>
    let b := localBackend kb q hint
    finalizeResults q Mode.local b.1 b.2

/-- The number of `getFileContent` calls a GitHub-mode query performs. -/
def githubContentFetchCount (q : String) (hint : Option TargetSource)
    (express swc : CorpusOutcome)
    (fetch : String → DataSource → Option GitHubFileContent) : Nat :=
  (githubBackend q hint express swc fetch).2.2

/-- The items the backend produced for a query, before the router's
zero-result normalization: the post-filter survivors in GitHub mode (none
when the search had no hits), the scored top-10 in local mode (none when the
collection is empty). -/
def genuineResults (mode : Mode) (kb : List MCPResultItem) (q : String)
    (hint : Option TargetSource) (express swc : CorpusOutcome)
    (fetch : String → DataSource → Option GitHubFileContent) : List MCPResultItem :=
  match mode with
  | Mode.github =>
    if (searchFiles (effectiveTargetSourceGithub q hint) express swc).length > 0 then
      githubGenuine q hint express swc fetch
    else []
  | Mode.local =>
    if kb.isEmpty then [] else localTopResults kb q hint

-- Concrete inputs used by the scenario claims and witnesses.

/-- The scenario document of the segmentation test (spec §8.7). -/
def buttonsDoc : GitHubFileContent :=
  { name := "buttons.md", path := "src/pages/references/buttons.md", sha := "",
    html_url := "", content := "", frontmatter := { title := some "Buttons" },
    markdown_body :=
      "# Buttons\nIntro text.\n## Usage\nHow to use.\n## Methods\n### press()\nDoes a thing.",
    dataSource := DataSource.express_sdk }

/-- A component-library README with no front-matter tags. -/
def tabsReadme : GitHubFileContent :=
  { name := "README.md", path := "packages/tabs/README.md", sha := "", html_url := "",
    content := "", frontmatter := {},
    markdown_body := "# Tabs\n\nTabs organize content into panels.",
    dataSource := DataSource.spectrum_web_components }

/-- An SDK document whose level-2 heading words include structural tokens. -/
def srcHeadingDoc : GitHubFileContent :=
  { name := "doc.md", path := "src/pages/guides/doc.md", sha := "", html_url := "",
    content := "", frontmatter := { title := some "Doc" },
    markdown_body := "# Doc\nIntro.\n## Src pages\nBody text.",
    dataSource := DataSource.express_sdk }

/-- The scenario item of the local-scoring test (spec §8.8), with the data
source the query's own "spectrum" term selects. -/
def buttonItem : MCPResultItem :=
  { type := "documentation_page", title := "Button", content := "Click handling...",
    source_hint := "kb", tags := some ["button", "spectrum"],
    dataSource := DataSource.spectrum_web_components }

/-- The same item under any other data source. -/
def buttonItemUnknown : MCPResultItem :=
  { type := "documentation_page", title := "Button", content := "Click handling...",
    source_hint := "kb", tags := some ["button", "spectrum"],
    dataSource := DataSource.unknown }

/-- A search outcome with five validated result items. -/
def exFive : CorpusOutcome := CorpusOutcome.ok [
  { name := "a.md", path := "src/pages/a.md", sha := "1" },
  { name := "b.md", path := "src/pages/b.md", sha := "2" },
  { name := "c.md", path := "src/pages/c.md", sha := "3" },
  { name := "d.md", path := "src/pages/d.md", sha := "4" },
  { name := "e.md", path := "src/pages/e.md", sha := "5" }]

/-- A search outcome with one validated result item. -/
def oneHitExpress : CorpusOutcome :=
  CorpusOutcome.ok [{ name := "a.md", path := "src/pages/a.md", sha := "1" }]

/-- One validated component-library search item. -/
def swcSampleItem : SearchItem :=
  { name := "README.md", path := "packages/tabs/README.md", sha := "9" }

/-- A placeholder kind of the router's zero-result normalization. -/
def isPlaceholderKind (t : String) : Bool :=
  t == "no_match" || strStartsWith t "no_match_" || strStartsWith t "error_"

-- Helper lemmas about the router.

theorem finalizeResults_results_ne_nil (q : String) (mode : Mode)
    (res : List MCPResultItem) (conf : ℚ) :
    (finalizeResults q mode res conf).results ≠ [] := by
  unfold finalizeResults
  cases res with
  | nil => simp
  | cons a l => simp

theorem finalizeResults_results_length_le (q : String) (mode : Mode)
    (res : List MCPResultItem) (conf : ℚ) :
    (finalizeResults q mode res conf).results.length ≤ 10 := by
  unfold finalizeResults
  simp only [List.length_take]
  omega

/-- C6: for every query and every mode, the results list in the structured
output of `queryDocumentation` contains at most 10 items (the router slices
the backend list to its first 10 entries). -/
theorem c6_truncation_invariant (mode : Mode) (kb : List MCPResultItem) (q : String)
    (hint : Option TargetSource) (express swc : CorpusOutcome)
    (fetch : String → DataSource → Option GitHubFileContent) :
    (queryDocumentation mode kb q hint express swc fetch).results.length ≤ 10 := by
  cases mode
  · exact finalizeResults_results_length_le q Mode.github _ _
  · exact finalizeResults_results_length_le q Mode.local _ _

/-- C7: the local query engine is a pure function of its inputs — two
evaluations on a fixed collection, query, and hint produce identical result
sequences — and its sort is stable: restricted to any one total score `s`,
the sorted scored list equals the unsorted scored list, so items of equal
score keep the relative order they had in the input collection. -/
theorem c7_determinism_and_stability (kb : List MCPResultItem) (q : String)
    (hint : Option TargetSource) :
    localTopResults kb q hint = localTopResults kb q hint ∧
    ∀ s : Nat, (localScoredResults kb q hint).filter (fun p => p.2 = s) =
      (localPositiveScored kb q hint).filter (fun p => p.2 = s) := by
  refine ⟨rfl, fun s => ?_⟩
  unfold localScoredResults
  exact filter_sortDescBy (fun p => p.2) (localPositiveScored kb q hint) s

/-- C8: when both corpora are targeted and the search for either corpus fails
— its promise chain resolves with null `validatedData`, covering both a
malformed response (the `safeParse` failure branch) and a caught network/API
error, for the express block at github_doc_service.ts 220-237 and the
spectrum block at 239-256 alike — `searchFiles` still returns exactly the
other corpus's result references (reordered only by the score sort).  The
first conjunct is the express search failing with the spectrum outcome
arbitrary; the second is the spectrum search failing with the express
outcome arbitrary. -/
theorem c8_corpus_isolation (failing other : CorpusOutcome)
    (h : failing.validatedData = none) :
    (searchFiles TargetSource.all failing other).Perm
      (refsFrom DataSource.spectrum_web_components other) ∧
    (searchFiles TargetSource.all other failing).Perm
      (refsFrom DataSource.express_sdk other) := by
  have hfail : ∀ src : DataSource, refsFrom src failing = [] := by
    intro src
    unfold refsFrom
    rw [h]
  constructor
  · dsimp only [searchFiles]
    rw [if_pos (Or.inl rfl), if_pos (Or.inl rfl), hfail, List.nil_append]
    exact sortDescBy_perm _ _
  · dsimp only [searchFiles]
    rw [if_pos (Or.inl rfl), if_pos (Or.inl rfl), hfail, List.append_nil]
    exact sortDescBy_perm _ _

/-- Witness for C8: a concrete failed search (one failure kind per corpus —
a network error on the express side, a malformed response discharged the same
way since both resolve to null `validatedData`). -/
theorem c8_corpus_isolation_witness :
    CorpusOutcome.netError.validatedData = none ∧
    ((searchFiles TargetSource.all CorpusOutcome.netError
        (CorpusOutcome.ok [swcSampleItem])).Perm
      (refsFrom DataSource.spectrum_web_components (CorpusOutcome.ok [swcSampleItem])) ∧
     (searchFiles TargetSource.all (CorpusOutcome.ok [swcSampleItem])
        CorpusOutcome.netError).Perm
      (refsFrom DataSource.express_sdk (CorpusOutcome.ok [swcSampleItem]))) :=
  ⟨rfl, c8_corpus_isolation CorpusOutcome.netError (CorpusOutcome.ok [swcSampleItem]) rfl⟩

/-- C4 counterexample: with a single targeted corpus whose search returns 5
merged results, the code performs 3 content fetches, not min(5, 5) = 5 — the
fetch cap at index.ts line 195 is 3 for a single corpus, not the search
request's per_page cap of 5. -/
theorem c4_counterexample :
    (searchFiles TargetSource.express_sdk exFive (CorpusOutcome.ok [])).length = 5 ∧
    githubContentFetchCount "layout" (some TargetSource.express_sdk) exFive
      (CorpusOutcome.ok []) (fun _ _ => none) = 3 ∧
    (3 : Nat) ≠ min 5 5 := by
  refine ⟨by decide, by decide, by decide⟩

/-- C4 as amended: the number of per-result content fetches equals
min(cap, number of merged search results), where the cap is 2 when both
corpora are queried simultaneously and 3 when a single corpus is targeted
(so it is smaller than the single-corpus search per_page cap of 5). -/
theorem c4_fetch_count (q : String) (hint : Option TargetSource)
    (express swc : CorpusOutcome)
    (fetch : String → DataSource → Option GitHubFileContent) :
    githubContentFetchCount q hint express swc fetch =
      min (if effectiveTargetSourceGithub q hint = TargetSource.all then 2 else 3)
        (searchFiles (effectiveTargetSourceGithub q hint) express swc).length := by
  unfold githubContentFetchCount githubBackend githubFetchList
  simp only []
  split
  · simp [List.length_take]
  · next h =>
    have h0 : (searchFiles (effectiveTargetSourceGithub q hint) express swc).length = 0 := by
      omega
    simp [h0]

/-- C1 counterexample: on the scenario collection, the local engine assigns
the item a total score of 9, not 8 — the three query terms contribute
3 + 2 + 2 + 1 = 8, and the engine adds one more point because the item's
data source equals the effective target source inferred from the word
"spectrum" in the query (index.ts line 266). -/
theorem c1_counterexample :
    (localScoredResults [buttonItem] "spectrum button click" none).map Prod.snd = [9] ∧
    (9 : Nat) ≠ 8 := by
  refine ⟨by decide, by decide⟩

/-- C1 as amended: the query "spectrum button click" makes the engine infer
the component-library target source.  An item with that data source scores
8 from term matches plus the 1-point data-source bonus (total 9) and is
returned; the same item under any other data source is excluded outright by
the target-source filter, leaving only the `no_match` placeholder. -/
theorem c1_local_scoring_scenario :
    localScoredResults [buttonItem] "spectrum button click" none = [(buttonItem, 9)] ∧
    (queryDocumentation Mode.local [buttonItem] "spectrum button click" none
        CorpusOutcome.malformed CorpusOutcome.malformed (fun _ _ => none)).results =
      [buttonItem] ∧
    localTopResults [buttonItemUnknown] "spectrum button click" none = [] ∧
    (queryDocumentation Mode.local [buttonItemUnknown] "spectrum button click" none
        CorpusOutcome.malformed CorpusOutcome.malformed (fun _ _ => none)).results =
      [noMatchItem "spectrum button click" Mode.local] := by
  refine ⟨by decide, by decide, by decide, by decide⟩

/-- C2: the pipeline-level behavior on `packages/tabs/README.md` with no
front-matter tags.  The segmenter strips the `packages` base path before
calling `extractTagsFromPath`, so the extractor's README special case —
which requires the first path segment to be `packages` and whose in-source
comments promise `packages/tabs/README.md -> ['tabs']` — never fires on the
pipeline's input, and the emitted item carries the extra tag "readme.md".
Calling the extractor on the unstripped repository path (second conjunct)
yields the documented one-element list. -/
theorem c2_readme_tags_divergence :
    (parseFileContentToMCPItems tabsReadme).map (fun i => i.tags) =
      [some ["tabs", "readme.md"]] ∧
    extractTagsFromPath "packages/tabs/README.md" DataSource.spectrum_web_components =
      ["tabs"] := by
  refine ⟨by decide, by decide⟩

/-- C3 counterexample: the words of a section heading are appended to the
item's tags with only a length and backtick filter (index.ts line 383 of the
service), so a heading "Src pages" emits an item tagged "src" and "pages". -/
theorem c3_counterexample :
    (parseFileContentToMCPItems srcHeadingDoc).any
      (fun i => (i.tags.getD []).contains "src" && (i.tags.getD []).contains "pages") =
      true := by
  decide

/-- C3 as amended: the hygiene filter is real but lives only in the path
based tag extractor: no tag `extractTagsFromPath` returns is empty, "src",
"pages", "index", or starts with an underscore.  Tags copied from
front-matter and the words split from section headings bypass this filter. -/
theorem c3_tag_extractor_hygiene (p : String) (ds : DataSource) (tag : String)
    (h : tag ∈ extractTagsFromPath p ds) :
    tag ≠ "" ∧ tag ≠ "src" ∧ tag ≠ "pages" ∧ tag ≠ "index" ∧
      strStartsWith tag "_" = false := by
  unfold extractTagsFromPath at h
  rw [List.mem_filter] at h
  have h2 := h.2
  simp at h2
  obtain ⟨h0, ⟨hs, hp, hi, -⟩, hu⟩ := h2
  exact ⟨h0, hs, hp, hi, by simpa using hu⟩

/-- Witness for C3's amended theorem at a concrete extractor call. -/
theorem c3_tag_extractor_hygiene_witness :
    "tabs" ∈ extractTagsFromPath "tabs/README.md" DataSource.spectrum_web_components ∧
    ("tabs" ≠ "" ∧ "tabs" ≠ "src" ∧ "tabs" ≠ "pages" ∧ "tabs" ≠ "index" ∧
      strStartsWith "tabs" "_" = false) :=
  ⟨by decide, c3_tag_extractor_hygiene "tabs/README.md" DataSource.spectrum_web_components
    "tabs" (by decide)⟩

/-- C9: segmenting the scenario document yields exactly the four items of the
claim, in order — a `page_overview` "Buttons - Overview" whose content holds
"Intro text.", an `examples_section` "Buttons - Usage", a
`class_methods_group` "Buttons - Methods" whose content is only the heading
line, and a `class_method_detail` "Buttons - press()". -/
theorem c9_segmentation_scenario :
    (parseFileContentToMCPItems buttonsDoc).map (fun i => (i.type, i.title)) =
      [("page_overview", "Buttons - Overview"),
       ("examples_section", "Buttons - Usage"),
       ("class_methods_group", "Buttons - Methods"),
       ("class_method_detail", "Buttons - press()")] ∧
    jsIncludes (((parseFileContentToMCPItems buttonsDoc).map
      (fun i => i.content)).headD "") "Intro text." = true ∧
    ((parseFileContentToMCPItems buttonsDoc).map (fun i => i.content)).getD 2 "" =
      "Methods" := by
  refine ⟨by decide, by decide, by decide⟩

/-- C10: in remote mode, when every space-separated token of the (lowercased)
query has length at most 2 — lowercasing is character-wise, so token lengths
equal those of the raw query — and the remote search returned at least one
file reference, the precision-filter term list is empty, the filter removes
every segmented item, and the response is exactly one `no_match` placeholder
with confidence 0.35. -/
theorem c10_short_tokens_filtered (kb : List MCPResultItem) (q : String)
    (hint : Option TargetSource) (express swc : CorpusOutcome)
    (fetch : String → DataSource → Option GitHubFileContent)
    (hshort : ∀ t ∈ strSplitOn (strToLower q) " ", t.length ≤ 2)
    (hhit : (searchFiles (effectiveTargetSourceGithub q hint) express swc).length ≥ 1) :
    (queryDocumentation Mode.github kb q hint express swc fetch).results =
      [noMatchItem q Mode.github] ∧
    (queryDocumentation Mode.github kb q hint express swc fetch).confidence_score =
      (0.35 : ℚ) := by
  have hterms : queryTermsForFilter q = [] := by
    unfold queryTermsForFilter
    rw [List.filter_eq_nil_iff]
    intro t ht
    have := hshort t ht
    simp
    omega
  have hgen : githubGenuine q hint express swc fetch = [] := by
    unfold githubGenuine githubFilterItems
    simp only [hterms, List.any_nil, List.filter_false]
  have hlen : (searchFiles (effectiveTargetSourceGithub q hint) express swc).length > 0 :=
    hhit
  simp only [queryDocumentation, githubBackend]
  rw [if_pos hlen, hgen]
  unfold finalizeResults
  simp [noMatchItem]

/-- Witness for C10 at the query "sp ui" with one validated search hit. -/
theorem c10_short_tokens_filtered_witness :
    (∀ t ∈ strSplitOn (strToLower "sp ui") " ", t.length ≤ 2) ∧
    (searchFiles (effectiveTargetSourceGithub "sp ui" none) oneHitExpress
        (CorpusOutcome.ok [])).length ≥ 1 ∧
    (queryDocumentation Mode.github [] "sp ui" none oneHitExpress (CorpusOutcome.ok [])
        (fun _ _ => none)).results = [noMatchItem "sp ui" Mode.github] ∧
    (queryDocumentation Mode.github [] "sp ui" none oneHitExpress (CorpusOutcome.ok [])
        (fun _ _ => none)).confidence_score = (0.35 : ℚ) := by
  have h := c10_short_tokens_filtered [] "sp ui" none oneHitExpress (CorpusOutcome.ok [])
    (fun _ _ => none) (by decide) (by decide)
  exact ⟨by decide, by decide, h.1, h.2⟩

/-- C5: for every query, the router's results list is non-empty, and whenever
the backend pipeline produced zero genuine items the response contains a
synthetic placeholder whose kind is `no_match` or starts with `no_match_` or
`error_` — no branch of the embedded router can yield an empty list or
escape these placeholder kinds. -/
theorem c5_nonempty_with_placeholder (mode : Mode) (kb : List MCPResultItem) (q : String)
    (hint : Option TargetSource) (express swc : CorpusOutcome)
    (fetch : String → DataSource → Option GitHubFileContent) :
    (queryDocumentation mode kb q hint express swc fetch).results ≠ [] ∧
    (genuineResults mode kb q hint express swc fetch = [] →
      ∃ r ∈ (queryDocumentation mode kb q hint express swc fetch).results,
        isPlaceholderKind r.type = true) := by
  constructor
  · cases mode
    · exact finalizeResults_results_ne_nil q Mode.github _ _
    · exact finalizeResults_results_ne_nil q Mode.local _ _
  · intro hgen
    cases mode
    · simp only [genuineResults] at hgen
      simp only [queryDocumentation, githubBackend]
      by_cases hlen :
          (searchFiles (effectiveTargetSourceGithub q hint) express swc).length > 0
      · rw [if_pos hlen] at hgen ⊢
        rw [hgen]
        unfold finalizeResults
        refine ⟨noMatchItem q Mode.github, ?_, by rfl⟩
        simp [noMatchItem]
      · rw [if_neg hlen]
        unfold finalizeResults
        refine ⟨noMatchGithubItem q, ?_, by rfl⟩
        simp [noMatchGithubItem]
    · simp only [genuineResults] at hgen
      simp only [queryDocumentation, localBackend]
      by_cases hkb : kb.isEmpty
      · rw [if_pos hkb]
        unfold finalizeResults
        refine ⟨errorInfoItem, ?_, by decide⟩
        simp [errorInfoItem]
      · rw [if_neg hkb] at hgen ⊢
        rw [hgen]
        unfold finalizeResults
        refine ⟨noMatchItem q Mode.local, ?_, by rfl⟩
        simp [noMatchItem]

/-- Witness for C5's zero-genuine-result hypothesis: the empty local
collection. -/
theorem c5_nonempty_with_placeholder_witness :
    genuineResults Mode.local [] "anything" none CorpusOutcome.malformed
        CorpusOutcome.malformed (fun _ _ => none) = [] ∧
    ∃ r ∈ (queryDocumentation Mode.local [] "anything" none CorpusOutcome.malformed
        CorpusOutcome.malformed (fun _ _ => none)).results,
      isPlaceholderKind r.type = true :=
  ⟨by decide,
    (c5_nonempty_with_placeholder Mode.local [] "anything" none CorpusOutcome.malformed
      CorpusOutcome.malformed (fun _ _ => none)).2 (by decide)⟩
